import Mathlib

/-!
Verification of the client-side streaming chat session protocol of the
jarvis-ai-assistant repository.  The definitions below are a shallow
embedding of the React client in
`src/anime-jarvis-ai/src/pages/jarvis_psycho_pass_app.tsx`:

* `Message` mirrors the message objects built in the source (fields
  `id`, `type`, `content`, `timestamp`, plus the optional `streaming`,
  `webSearch`, `thinking`, `files` fields; a field absent in JS is
  falsy, modelled by the default values `false` / `[]`).
* `handleWebSocketMessage` is the `switch (data.type)` handler
  (source lines 144-203).
* `handleSendMessage` is the submit handler (lines 205-230); it returns
  the updated state together with the outbound `chat` event, if any.
* `handleFileSelect` is the upload handler (lines 236-273); its second
  component is the console-error output of the `catch` branch.
* `step` / `runFrom` give the single-threaded event semantics: each
  event or local call is applied atomically, with the value of
  `Date.now()` supplied as the `now : Nat` input of the step.
* `MgrState` with `connectWebSocket`, `wsOnCloseMgr`,
  `reconnectTimerFires`, `cleanup` models the connection-lifecycle
  slice (lines 86-94 and 105-142): the `onclose` handler schedules a
  reconnect via `setTimeout(connectWebSocket, 3000)` and the unmount
  cleanup only calls `ws.close()` without cancelling timers.
-/

/-- Role of a message: the source stores it as the string field
`type` with values 'user' | 'assistant' | 'system' | 'error'. -/
inductive Role where
  | user
  | assistant
  | system
  | error
deriving DecidableEq, Repr

/-- Connection status: the source state variable `connectionStatus`
takes the string values 'disconnected' | 'connected' | 'error'. -/
inductive ConnStatus where
  | disconnected
  | connected
  | error
deriving DecidableEq, Repr

/-- One conversation message, as built by the source.  Fields that a
given creation site omits in JS (and which therefore read as falsy)
default to `false` / `[]`. -/
structure Message where
  id : Nat
  type : Role
  content : String
  timestamp : Nat
  streaming : Bool := false
  webSearch : Bool := false
  thinking : Bool := false
  files : List String := []
deriving DecidableEq, Repr

/-- Inbound WebSocket event, the tagged form of the JSON objects
dispatched on `data.type`; `other` stands for any type string not
among 'status' | 'chunk' | 'complete' | 'error' | 'pong' (the switch
has no matching case for those). -/
inductive WSData where
  | status (status : String)
  | chunk (full : String)
  | complete
  | error (message : String)
  | pong
  | other (ty : String)
deriving DecidableEq, Repr

/-- Outbound `chat` event sent over the WebSocket by
`handleSendMessage` (source lines 222-228). -/
structure ChatEvent where
  type : String
  message : String
  webSearch : Bool
  thinkingMode : Bool
  model : String
deriving DecidableEq, Repr

/-- The React component state relevant to the session protocol. -/
structure ClientState where
  messages : List Message
  inputText : String
  isThinking : Bool
  webSearchEnabled : Bool
  thinkingMode : Bool
  selectedModel : String
  connectionStatus : ConnStatus
  wsOpen : Bool
  currentMessage : String
deriving DecidableEq, Repr

/-- Initial component state (`useState` initialisers, lines 60-73). -/
def initState : ClientState :=
  { messages := []
    inputText := ""
    isThinking := false
    webSearchEnabled := false
    thinkingMode := false
    selectedModel := "phi3:3.8b"
    connectionStatus := ConnStatus.disconnected
    wsOpen := false
    currentMessage := "" }

/-- The fresh streaming assistant message appended by the `chunk`
case when the last message is not a streaming assistant message
(source lines 163-169). -/
def newAssistantMessage (now : Nat) (full : String) : Message :=
  { id := now, type := Role.assistant, content := full,
    timestamp := now, streaming := true }

/-- The finalized error message appended by the `error` case
(source lines 191-196). -/
def newErrorMessage (now : Nat) (msg : String) : Message :=
  { id := now, type := Role.error, content := "Error: " ++ msg,
    timestamp := now }

/-- The `handleWebSocketMessage` dispatcher, source lines 144-203.
`now` is the value of `Date.now()` at the time the event is handled. -/
def handleWebSocketMessage (now : Nat) (data : WSData) (s : ClientState) :
    ClientState :=
  match data with
  | WSData.status st =>
      if st = "thinking" then { s with isThinking := true } else s
  | WSData.chunk full =>
      let withRef := { s with currentMessage := full }
      match s.messages.getLast? with
      | some lastMsg =>
          if lastMsg.type = Role.assistant ∧ lastMsg.streaming = true then
            { withRef with
                messages := s.messages.dropLast ++
                  [{ lastMsg with content := full }] }
          else
            { withRef with
                messages := s.messages ++ [newAssistantMessage now full] }
      | none =>
          { withRef with
              messages := s.messages ++ [newAssistantMessage now full] }
  | WSData.complete =>
      let cleared := { s with isThinking := false, currentMessage := "" }
      match s.messages.getLast? with
      | some lastMsg =>
          if lastMsg.streaming = true then
            { cleared with
                messages := s.messages.dropLast ++
                  [{ lastMsg with streaming := false }] }
          else cleared
      | none => cleared
  | WSData.error msg =>
      { s with isThinking := false,
               messages := s.messages ++ [newErrorMessage now msg] }
  | WSData.pong => s
  | WSData.other _ => s

/-- Model of the JavaScript `String.prototype.trim()` used by the
submit guard: removes leading and trailing whitespace. -/
def trimString (s : String) : String :=
  ⟨((s.data.dropWhile Char.isWhitespace).reverse.dropWhile
      Char.isWhitespace).reverse⟩

/-- The submit handler `handleSendMessage`, source lines 205-230.
The guard `!inputText.trim() || connectionStatus !== 'connected'`
returns early with no state change and no outbound event; otherwise a
user message is appended, the input is cleared, and — when the
underlying socket is open — a `chat` event is sent. -/
def handleSendMessage (now : Nat) (s : ClientState) :
    ClientState × Option ChatEvent :=
  if trimString s.inputText = "" ∨ s.connectionStatus ≠ ConnStatus.connected then
    (s, none)
  else
    let newMessage : Message :=
      { id := now, type := Role.user, content := s.inputText,
        timestamp := now, webSearch := s.webSearchEnabled,
        thinking := s.thinkingMode }
    let s' := { s with messages := s.messages ++ [newMessage],
                       inputText := "" }
    if s.wsOpen = true then
      (s', some { type := "chat", message := s.inputText,
                  webSearch := s.webSearchEnabled,
                  thinkingMode := s.thinkingMode,
                  model := s.selectedModel })
    else
      (s', none)

/-- Outcome of the `/api/upload` exchange: either a JSON response with
its `success` flag and `files` list, or a thrown exception (network or
parse failure) caught by the `catch` block. -/
inductive UploadOutcome where
  | response (success : Bool) (files : List String)
  | exception (message : String)
deriving DecidableEq, Repr

/-- The upload summary string built in the success branch
(source line 258). -/
def uploadSummary (fileNames : List String) : String :=
  "📎 Uploaded " ++ toString fileNames.length ++ " file(s): " ++
    String.intercalate ", " fileNames

/-- The upload handler `handleFileSelect`, source lines 236-273.  The
second component is what `console.error` emits: the source logs (and
appends an error message) only in the `catch` branch; a parsed
response with `success` falsy takes no action at all. -/
def handleFileSelect (now : Nat) (fileNames : List String)
    (outcome : UploadOutcome) (s : ClientState) :
    ClientState × Option String :=
  if fileNames.length = 0 then (s, none)
  else
    match outcome with
    | UploadOutcome.response ok resultFiles =>
        if ok = true then
          ({ s with messages := s.messages ++
              [{ id := now, type := Role.user,
                 content := uploadSummary fileNames,
                 timestamp := now, files := resultFiles }] }, none)
        else (s, none)
    | UploadOutcome.exception msg =>
        ({ s with messages := s.messages ++
            [{ id := now, type := Role.error,
               content := "Failed to upload files: " ++ msg,
               timestamp := now }] },
         some ("File upload error: " ++ msg))

/-- The system message appended by `ws.onopen`, source lines 112-117. -/
def connectedMessage (now : Nat) : Message :=
  { id := now, type := Role.system,
    content := "Connected to JARVIS. Ready to assist!",
    timestamp := now }

/-- One atomic transition of the single-threaded client: a WebSocket
lifecycle callback, an inbound message, or a local UI call, applied at
clock value `now`. -/
inductive ClientAction where
  | wsOpenEv
  | wsMsg (data : WSData)
  | wsErrorEv
  | wsCloseEv
  | setInputText (text : String)
  | sendClick
  | fileSelect (fileNames : List String) (outcome : UploadOutcome)

/-- Apply one `ClientAction` at clock value `now`, following the handlers in
the source (`ws.onopen` lines 109-118, `ws.onerror` 125-128,
`ws.onclose` 130-135 for the state fields, `handleWebSocketMessage`,
`setInputText`, `handleSendMessage`, `handleFileSelect`). -/
def step (now : Nat) (a : ClientAction) (s : ClientState) : ClientState :=
  match a with
  | ClientAction.wsOpenEv =>
      { s with connectionStatus := ConnStatus.connected, wsOpen := true,
               messages := s.messages ++ [connectedMessage now] }
  | ClientAction.wsMsg d => handleWebSocketMessage now d s
  | ClientAction.wsErrorEv => { s with connectionStatus := ConnStatus.error }
  | ClientAction.wsCloseEv =>
      { s with connectionStatus := ConnStatus.disconnected, wsOpen := false }
  | ClientAction.setInputText t => { s with inputText := t }
  | ClientAction.sendClick => (handleSendMessage now s).1
  | ClientAction.fileSelect names outcome => (handleFileSelect now names outcome s).1

/-- Run a trace of timestamped actions from a given state. -/
def runFrom (s : ClientState) (tr : List (Nat × ClientAction)) : ClientState :=
  tr.foldl (fun st p => step p.1 p.2 st) s

/-- A state is reachable when some trace from the initial state
produces it. -/
def Reachable (s : ClientState) : Prop :=
  ∃ tr : List (Nat × ClientAction), runFrom initState tr = s

/-- The ids of the messages of a state, in order. -/
def msgIds (s : ClientState) : List Nat :=
  s.messages.map (fun m => m.id)

/-- The property asserted by the spec's streaming invariant: at most
one message is streaming, and every non-last message is finalized. -/
def StreamingLastProp (l : List Message) : Prop :=
  l.countP (fun m => m.streaming) ≤ 1 ∧
    ∀ m ∈ l.dropLast, m.streaming = false

/-- The inductive session invariant actually maintained by the chunk
and complete handlers: every non-last message is finalized and every
streaming message is an assistant message. -/
def SessionInv (l : List Message) : Prop :=
  (∀ m ∈ l.dropLast, m.streaming = false) ∧
    ∀ m ∈ l, m.streaming = true → m.type = Role.assistant

instance (l : List Message) : Decidable (StreamingLastProp l) := by
  unfold StreamingLastProp
  infer_instance

instance (l : List Message) : Decidable (SessionInv l) := by
  unfold SessionInv
  infer_instance

/-- Connection-lifecycle slice of the component, for the teardown /
reconnection behaviour: `pendingReconnects` counts scheduled
`setTimeout(connectWebSocket, 3000)` timers not yet fired,
`connectCalls` counts invocations of `connectWebSocket`, and
`unmounted` records that the `useEffect` cleanup has run. -/
structure MgrState where
  connectionStatus : ConnStatus
  unmounted : Bool
  pendingReconnects : Nat
  connectCalls : Nat
deriving DecidableEq, Repr

/-- Initial lifecycle state before the component mounts. -/
def initMgrState : MgrState :=
  { connectionStatus := ConnStatus.disconnected, unmounted := false,
    pendingReconnects := 0, connectCalls := 0 }

/-- `connectWebSocket` (source lines 105-142): creates the socket and
installs the handlers; status changes happen in those handlers. -/
def connectWebSocket (m : MgrState) : MgrState :=
  { m with connectCalls := m.connectCalls + 1 }

/-- `ws.onopen` effect on the lifecycle state (line 111). -/
def wsOnOpenMgr (m : MgrState) : MgrState :=
  { m with connectionStatus := ConnStatus.connected }

/-- `ws.onclose` (source lines 130-135): sets the status to
disconnected and unconditionally schedules a reconnect via
`setTimeout(connectWebSocket, 3000)` — it consults no teardown flag
and the timer id is never stored. -/
def wsOnCloseMgr (m : MgrState) : MgrState :=
  { m with connectionStatus := ConnStatus.disconnected,
           pendingReconnects := m.pendingReconnects + 1 }

/-- A scheduled reconnect timer fires: `connectWebSocket` runs. -/
def reconnectTimerFires (m : MgrState) : MgrState :=
  if m.pendingReconnects > 0 then
    connectWebSocket { m with pendingReconnects := m.pendingReconnects - 1 }
  else m

/-- The `useEffect` cleanup (source lines 88-93): it clears the status
polling interval and calls `wsRef.current.close()`; it does not cancel
any reconnect timer and does not detach the `onclose` handler. -/
def cleanup (m : MgrState) : MgrState :=
  { m with unmounted := true }

/-- A list with a known last element splits as its front followed by
that element. -/
lemma eq_dropLast_concat_of_getLast? {l : List Message} {m : Message}
    (h : l.getLast? = some m) : l = l.dropLast ++ [m] := by
  have hne : l ≠ [] := by
    intro hl
    rw [hl] at h
    simp at h
  have hm : l.getLast hne = m := by
    have h2 := List.getLast?_eq_getLast l hne
    rw [h2] at h
    exact Option.some.inj h
  rw [← hm]
  exact (List.dropLast_concat_getLast hne).symm

/-- If every non-last message is finalized, at most one message of the
list is streaming. -/
lemma countP_streaming_le_one {l : List Message}
    (h : ∀ m ∈ l.dropLast, m.streaming = false) :
    l.countP (fun m => m.streaming) ≤ 1 := by
  cases hl : l.getLast? with
  | none =>
      have : l = [] := List.getLast?_eq_none_iff.mp hl
      simp [this]
  | some m =>
      have hsplit := eq_dropLast_concat_of_getLast? hl
      rw [hsplit, List.countP_append]
      have h0 : (l.dropLast).countP (fun m => m.streaming) = 0 := by
        rw [List.countP_eq_zero]
        intro x hx
        simp [h x hx]
      rw [h0]
      simp [List.countP_cons]
      split <;> simp

/-- `handleWebSocketMessage` touches only `messages`, `isThinking` and
`currentMessage`: the connection fields are preserved. -/
lemma handleWSM_preserves_conn (now : Nat) (d : WSData) (s : ClientState) :
    (handleWebSocketMessage now d s).connectionStatus = s.connectionStatus ∧
      (handleWebSocketMessage now d s).wsOpen = s.wsOpen := by
  cases d with
  | status st =>
      by_cases h : st = "thinking" <;> simp [handleWebSocketMessage, h]
  | chunk full =>
      simp only [handleWebSocketMessage]
      cases s.messages.getLast? with
      | none => exact ⟨rfl, rfl⟩
      | some m =>
          dsimp only
          by_cases hm : m.type = Role.assistant ∧ m.streaming = true
          · rw [if_pos hm]; exact ⟨rfl, rfl⟩
          · rw [if_neg hm]; exact ⟨rfl, rfl⟩
  | complete =>
      simp only [handleWebSocketMessage]
      cases s.messages.getLast? with
      | none => exact ⟨rfl, rfl⟩
      | some m =>
          dsimp only
          by_cases hm : m.streaming = true
          · rw [if_pos hm]; exact ⟨rfl, rfl⟩
          · rw [if_neg hm]; exact ⟨rfl, rfl⟩
  | error msg => exact ⟨rfl, rfl⟩
  | pong => exact ⟨rfl, rfl⟩
  | other ty => exact ⟨rfl, rfl⟩

/-- `handleSendMessage` preserves the connection fields. -/
lemma handleSendMessage_preserves_conn (now : Nat) (s : ClientState) :
    (handleSendMessage now s).1.connectionStatus = s.connectionStatus ∧
      (handleSendMessage now s).1.wsOpen = s.wsOpen := by
  by_cases hg : trimString s.inputText = "" ∨ s.connectionStatus ≠ ConnStatus.connected
  · simp [handleSendMessage, hg]
  · by_cases hw : s.wsOpen = true <;> simp [handleSendMessage, hg, hw]

/-- `handleFileSelect` preserves the connection fields. -/
lemma handleFileSelect_preserves_conn (now : Nat) (names : List String)
    (outcome : UploadOutcome) (s : ClientState) :
    (handleFileSelect now names outcome s).1.connectionStatus
        = s.connectionStatus ∧
      (handleFileSelect now names outcome s).1.wsOpen = s.wsOpen := by
  by_cases h0 : names.length = 0
  · simp [handleFileSelect, h0]
  · cases outcome with
    | response ok files =>
        by_cases hok : ok = true <;> simp [handleFileSelect, h0, hok]
    | exception msg => simp [handleFileSelect, h0]

/-- Unfolding one step of `runFrom`. -/
lemma runFrom_cons (s : ClientState) (p : Nat × ClientAction)
    (tr : List (Nat × ClientAction)) :
    runFrom s (p :: tr) = runFrom (step p.1 p.2 s) tr := rfl

/-- Every step preserves the implication
`connected → socket open`. -/
lemma step_preserves_connOpen (now : Nat) (a : ClientAction)
    (s : ClientState)
    (h : s.connectionStatus = ConnStatus.connected → s.wsOpen = true) :
    (step now a s).connectionStatus = ConnStatus.connected →
      (step now a s).wsOpen = true := by
  cases a with
  | wsOpenEv => intro; rfl
  | wsMsg d =>
      intro hc
      simp only [step] at hc ⊢
      have hp := handleWSM_preserves_conn now d s
      rw [hp.2]
      exact h (hp.1 ▸ hc)
  | wsErrorEv => intro hc; simp [step] at hc
  | wsCloseEv => intro hc; simp [step] at hc
  | setInputText t => exact h
  | sendClick =>
      intro hc
      simp only [step] at hc ⊢
      have hp := handleSendMessage_preserves_conn now s
      rw [hp.2]
      exact h (hp.1 ▸ hc)
  | fileSelect names outcome =>
      intro hc
      simp only [step] at hc ⊢
      have hp := handleFileSelect_preserves_conn now names outcome s
      rw [hp.2]
      exact h (hp.1 ▸ hc)

/-- In every reachable state, a connected status implies the
underlying socket is open. -/
lemma reachable_connected_wsOpen {s : ClientState} (hr : Reachable s)
    (hc : s.connectionStatus = ConnStatus.connected) : s.wsOpen = true := by
  obtain ⟨tr, htr⟩ := hr
  subst htr
  suffices hgen : ∀ (tr : List (Nat × ClientAction)) (s0 : ClientState),
      (s0.connectionStatus = ConnStatus.connected → s0.wsOpen = true) →
      (runFrom s0 tr).connectionStatus = ConnStatus.connected →
      (runFrom s0 tr).wsOpen = true by
    exact hgen tr initState (by intro h; simp [initState] at h) hc
  intro tr
  induction tr with
  | nil => intro s0 h; exact h
  | cons p rest ih =>
      intro s0 h
      rw [runFrom_cons]
      exact ih (step p.1 p.2 s0) (step_preserves_connOpen p.1 p.2 s0 h)

/-- Replacing the last element of a list by one with the same id keeps
the id sequence unchanged. -/
lemma map_id_dropLast_concat {l : List Message} {m m' : Message}
    (h : l.getLast? = some m) (hid : m'.id = m.id) :
    (l.dropLast ++ [m']).map (fun x => x.id) = l.map (fun x => x.id) := by
  conv_rhs => rw [eq_dropLast_concat_of_getLast? h]
  simp [hid]

/-- Every step either leaves the id sequence unchanged or appends the
current clock value `now` to it. -/
lemma step_msgIds (now : Nat) (a : ClientAction) (s : ClientState) :
    msgIds (step now a s) = msgIds s ∨
      msgIds (step now a s) = msgIds s ++ [now] := by
  cases a with
  | wsOpenEv =>
      right
      simp [step, msgIds, connectedMessage]
  | wsMsg d =>
      cases d with
      | status st =>
          left
          by_cases h : st = "thinking" <;> simp [step, handleWebSocketMessage, h, msgIds]
      | chunk full =>
          simp only [step, handleWebSocketMessage]
          cases hl : s.messages.getLast? with
          | none =>
              right
              simp [msgIds, newAssistantMessage]
          | some m =>
              dsimp only
              by_cases hm : m.type = Role.assistant ∧ m.streaming = true
              · left
                rw [if_pos hm]
                simp only [msgIds]
                exact map_id_dropLast_concat hl rfl
              · right
                rw [if_neg hm]
                simp [msgIds, newAssistantMessage]
      | complete =>
          simp only [step, handleWebSocketMessage]
          cases hl : s.messages.getLast? with
          | none => left; simp [msgIds]
          | some m =>
              dsimp only
              by_cases hm : m.streaming = true
              · left
                rw [if_pos hm]
                simp only [msgIds]
                exact map_id_dropLast_concat hl rfl
              · left
                rw [if_neg hm]
                simp [msgIds]
      | error msg =>
          right
          simp [step, handleWebSocketMessage, msgIds, newErrorMessage]
      | pong => left; rfl
      | other ty => left; rfl
  | wsErrorEv => left; rfl
  | wsCloseEv => left; rfl
  | setInputText t => left; rfl
  | sendClick =>
      simp only [step]
      by_cases hg : trimString s.inputText = "" ∨ s.connectionStatus ≠ ConnStatus.connected
      · left
        simp [handleSendMessage, hg]
      · by_cases hw : s.wsOpen = true
        · right
          simp [handleSendMessage, hg, hw, msgIds]
        · right
          simp [handleSendMessage, hg, hw, msgIds]
  | fileSelect names outcome =>
      simp only [step]
      by_cases h0 : names.length = 0
      · left
        simp [handleFileSelect, h0]
      · cases outcome with
        | response ok files =>
            by_cases hok : ok = true
            · right
              simp [handleFileSelect, h0, hok, msgIds]
            · left
              simp [handleFileSelect, h0, hok]
        | exception msg =>
            right
            simp [handleFileSelect, h0, msgIds]

/-- Along any trace whose clock values are strictly increasing, the id
sequence of the message log stays strictly increasing, provided the
starting ids are strictly increasing and below every clock value of
the trace. -/
lemma runFrom_ids_pairwise :
    ∀ (tr : List (Nat × ClientAction)) (s : ClientState),
      (tr.map Prod.fst).Pairwise (· < ·) →
      (msgIds s).Pairwise (· < ·) →
      (∀ i ∈ msgIds s, ∀ t ∈ tr.map Prod.fst, i < t) →
      (msgIds (runFrom s tr)).Pairwise (· < ·) := by
  intro tr
  induction tr with
  | nil => intro s _ h2 _; exact h2
  | cons p rest ih =>
      intro s h1 h2 h3
      rw [runFrom_cons]
      have hmem : p.1 ∈ (p :: rest).map Prod.fst := by simp
      rw [List.map_cons] at h1
      rcases List.pairwise_cons.mp h1 with ⟨hhead, htail⟩
      have hbound : ∀ i ∈ msgIds s, i < p.1 := fun i hi => h3 i hi p.1 hmem
      rcases step_msgIds p.1 p.2 s with heq | heq
      · refine ih (step p.1 p.2 s) htail (heq ▸ h2) ?_
        intro i hi t ht
        rw [heq] at hi
        exact h3 i hi t (by simp [ht])
      · refine ih (step p.1 p.2 s) htail ?_ ?_
        · rw [heq]
          rw [List.pairwise_append]
          refine ⟨h2, List.pairwise_singleton _ _, ?_⟩
          intro i hi j hj
          rw [List.mem_singleton] at hj
          subst hj
          exact hbound i hi
        · intro i hi t ht
          rw [heq, List.mem_append, List.mem_singleton] at hi
          rcases hi with hi | hi
          · exact h3 i hi t (by simp [ht])
          · subst hi
            exact hhead t ht

/-- Appending a finalized message keeps the streaming count at most
one. -/
lemma countP_concat_false {l : List Message} {m : Message}
    (hl : l.countP (fun x => x.streaming) ≤ 1) (hm : m.streaming = false) :
    (l ++ [m]).countP (fun x => x.streaming) ≤ 1 := by
  rw [List.countP_append]
  simpa [List.countP_cons, hm] using hl

/-- The `chunk` handler preserves the session invariant. -/
lemma sessionInv_chunk (now : Nat) (full : String) (s : ClientState)
    (h : SessionInv s.messages) :
    SessionInv ((handleWebSocketMessage now (WSData.chunk full) s).messages) := by
  obtain ⟨h1, h2⟩ := h
  simp only [handleWebSocketMessage]
  cases hl : s.messages.getLast? with
  | none =>
      have hnil : s.messages = [] := List.getLast?_eq_none_iff.mp hl
      dsimp only
      rw [hnil]
      constructor
      · intro m hm
        simp at hm
      · intro m hm hstream
        simp at hm
        rw [hm]
        rfl
  | some m =>
      dsimp only
      have hmem : m ∈ s.messages := by
        rw [eq_dropLast_concat_of_getLast? hl]
        exact List.mem_append_right _ (List.mem_singleton_self m)
      by_cases hm : m.type = Role.assistant ∧ m.streaming = true
      · rw [if_pos hm]
        constructor
        · intro x hx
          rw [List.dropLast_concat] at hx
          exact h1 x hx
        · intro x hx hstream
          rw [List.mem_append, List.mem_singleton] at hx
          rcases hx with hx | hx
          · exact absurd hstream (by simp [h1 x hx])
          · rw [hx]
            exact hm.1
      · rw [if_neg hm]
        have hlastF : m.streaming = false := by
          cases hms : m.streaming with
          | false => rfl
          | true => exact absurd ⟨h2 m hmem hms, hms⟩ hm
        have hall : ∀ x ∈ s.messages, x.streaming = false := by
          intro x hx
          rw [eq_dropLast_concat_of_getLast? hl, List.mem_append,
            List.mem_singleton] at hx
          rcases hx with hx | hx
          · exact h1 x hx
          · rw [hx]
            exact hlastF
        constructor
        · intro x hx
          rw [List.dropLast_concat] at hx
          exact hall x hx
        · intro x hx hstream
          rw [List.mem_append, List.mem_singleton] at hx
          rcases hx with hx | hx
          · exact absurd hstream (by simp [hall x hx])
          · rw [hx]
            rfl

/-- The `complete` handler preserves the session invariant. -/
lemma sessionInv_complete (now : Nat) (s : ClientState)
    (h : SessionInv s.messages) :
    SessionInv ((handleWebSocketMessage now WSData.complete s).messages) := by
  obtain ⟨h1, h2⟩ := h
  simp only [handleWebSocketMessage]
  cases hl : s.messages.getLast? with
  | none => exact ⟨h1, h2⟩
  | some m =>
      dsimp only
      by_cases hm : m.streaming = true
      · rw [if_pos hm]
        constructor
        · intro x hx
          rw [List.dropLast_concat] at hx
          exact h1 x hx
        · intro x hx hstream
          rw [List.mem_append, List.mem_singleton] at hx
          rcases hx with hx | hx
          · exact absurd hstream (by simp [h1 x hx])
          · rw [hx] at hstream
            simp at hstream
      · rw [if_neg hm]
        exact ⟨h1, h2⟩

/-- After any single step from a state satisfying the session
invariant, at most one message is streaming. -/
lemma step_countP_le_one (now : Nat) (a : ClientAction) (s : ClientState)
    (h : SessionInv s.messages) :
    ((step now a s).messages.countP (fun m => m.streaming)) ≤ 1 := by
  have hbase := countP_streaming_le_one h.1
  cases a with
  | wsOpenEv =>
      have hmsgs : (step now ClientAction.wsOpenEv s).messages
          = s.messages ++ [connectedMessage now] := rfl
      rw [hmsgs]
      exact countP_concat_false hbase rfl
  | wsMsg d =>
      cases d with
      | status st =>
          by_cases h' : st = "thinking" <;>
            simpa [step, handleWebSocketMessage, h'] using hbase
      | chunk full =>
          exact countP_streaming_le_one (sessionInv_chunk now full s ⟨h.1, h.2⟩).1
      | complete =>
          exact countP_streaming_le_one (sessionInv_complete now s ⟨h.1, h.2⟩).1
      | error msg =>
          have hmsgs : (step now (ClientAction.wsMsg (WSData.error msg)) s).messages
              = s.messages ++ [newErrorMessage now msg] := rfl
          rw [hmsgs]
          exact countP_concat_false hbase rfl
      | pong => exact hbase
      | other ty => exact hbase
  | wsErrorEv => exact hbase
  | wsCloseEv => exact hbase
  | setInputText t => exact hbase
  | sendClick =>
      simp only [step]
      by_cases hg : trimString s.inputText = "" ∨ s.connectionStatus ≠ ConnStatus.connected
      · simpa [handleSendMessage, hg] using hbase
      · have hmsgs : (handleSendMessage now s).1.messages
            = s.messages ++
              [{ id := now, type := Role.user, content := s.inputText,
                 timestamp := now, webSearch := s.webSearchEnabled,
                 thinking := s.thinkingMode }] := by
          unfold handleSendMessage
          rw [if_neg hg]
          dsimp only
          by_cases hw : s.wsOpen = true
          · rw [if_pos hw]
          · rw [if_neg hw]
        rw [hmsgs]
        exact countP_concat_false hbase rfl
  | fileSelect names outcome =>
      simp only [step]
      by_cases h0 : names.length = 0
      · simpa [handleFileSelect, h0] using hbase
      · cases outcome with
        | response ok files =>
            by_cases hok : ok = true
            · have hmsgs :
                  (handleFileSelect now names (UploadOutcome.response ok files) s).1.messages
                    = s.messages ++
                      [{ id := now, type := Role.user,
                         content := uploadSummary names, timestamp := now,
                         files := files }] := by
                simp [handleFileSelect, h0, hok]
              rw [hmsgs]
              exact countP_concat_false hbase rfl
            · simpa [handleFileSelect, h0, hok] using hbase
        | exception msg =>
            have hmsgs :
                (handleFileSelect now names (UploadOutcome.exception msg) s).1.messages
                  = s.messages ++
                    [{ id := now, type := Role.error,
                       content := "Failed to upload files: " ++ msg,
                       timestamp := now }] := by
              simp [handleFileSelect, h0]
            rw [hmsgs]
            exact countP_concat_false hbase rfl

/-- C1 (counterexample): the claimed invariant — at most one streaming
message, always in last position — is violated by the code: from the
empty session, a `chunk` event followed by an `error` event leaves the
streaming assistant message in a non-last position (the error message
is appended after it without finalizing it). -/
theorem c1_streaming_invariant_counterexample :
    ¬ StreamingLastProp
        ((runFrom initState
          [(1, ClientAction.wsMsg (WSData.chunk "Hi")),
           (2, ClientAction.wsMsg (WSData.error "boom"))]).messages) := by
  decide

/-- C1 (amended): from any state satisfying the session invariant
(every non-last message finalized and every streaming message an
assistant message — hence at most one streaming message, in last
position), any single event application or local call leaves at most
one message streaming; moreover the `partial` (chunk) and `complete`
handlers re-establish the full invariant.  Events that append a
finalized message (`error`, `connectionEstablished`, submit, upload)
can leave a streaming message in non-last position, as the
counterexample shows. -/
theorem c1_streaming_invariant_amended (now : Nat) (s : ClientState)
    (h : SessionInv s.messages) :
    (∀ a : ClientAction,
        ((step now a s).messages.countP (fun m => m.streaming)) ≤ 1) ∧
    (∀ full : String,
        SessionInv ((handleWebSocketMessage now (WSData.chunk full) s).messages)) ∧
    SessionInv ((handleWebSocketMessage now WSData.complete s).messages) :=
  ⟨fun a => step_countP_le_one now a s h,
   fun full => sessionInv_chunk now full s h,
   sessionInv_complete now s h⟩

/-- C1 (witness): the amended invariant theorem applied at the initial
state and a concrete chunk event. -/
theorem c1_streaming_invariant_amended_witness :
    SessionInv initState.messages ∧
      ((step 3 (ClientAction.wsMsg (WSData.chunk "x")) initState).messages.countP
        (fun m => m.streaming)) ≤ 1 :=
  ⟨by decide,
   (c1_streaming_invariant_amended 3 initState (by decide)).1
     (ClientAction.wsMsg (WSData.chunk "x"))⟩

/-- C2: a `chunk` (partial) event replaces the content of the last
message when it is a streaming assistant message and otherwise appends
a fresh streaming assistant message; and the event sequence
status("processing"), chunk("Hi"), chunk("Hi there"), complete from
the empty session produces exactly one assistant message with content
"Hi there" and streaming = false. -/
theorem c2_chunk_replace_or_append (now : Nat) (full : String)
    (s : ClientState) :
    (∀ m, s.messages.getLast? = some m → m.type = Role.assistant →
        m.streaming = true →
        (handleWebSocketMessage now (WSData.chunk full) s).messages
          = s.messages.dropLast ++ [{ m with content := full }]) ∧
    ((∀ m, s.messages.getLast? = some m →
        ¬(m.type = Role.assistant ∧ m.streaming = true)) →
        (handleWebSocketMessage now (WSData.chunk full) s).messages
          = s.messages ++ [newAssistantMessage now full]) ∧
    (runFrom initState
        [(1, ClientAction.wsMsg (WSData.status "processing")),
         (2, ClientAction.wsMsg (WSData.chunk "Hi")),
         (3, ClientAction.wsMsg (WSData.chunk "Hi there")),
         (4, ClientAction.wsMsg WSData.complete)]).messages
      = [{ id := 2, type := Role.assistant, content := "Hi there",
           timestamp := 2 }] := by
  refine ⟨?_, ?_, by decide⟩
  · intro m hm ha hs
    simp only [handleWebSocketMessage, hm]
    rw [if_pos ⟨ha, hs⟩]
  · intro hno
    simp only [handleWebSocketMessage]
    cases hl : s.messages.getLast? with
    | none => rfl
    | some m =>
        dsimp only
        rw [if_neg (hno m hl)]

/-- C2 (witness): the replace branch applied to the state produced by
one chunk event. -/
theorem c2_chunk_replace_or_append_witness :
    (handleWebSocketMessage 7 (WSData.chunk "Hey")
        (runFrom initState [(2, ClientAction.wsMsg (WSData.chunk "Hi"))])).messages
      = (runFrom initState
          [(2, ClientAction.wsMsg (WSData.chunk "Hi"))]).messages.dropLast
          ++ [{ newAssistantMessage 2 "Hi" with content := "Hey" }] :=
  (c2_chunk_replace_or_append 7 "Hey" _).1 (newAssistantMessage 2 "Hi")
    (by decide) rfl rfl

/-- C3 (counterexample): the claim says a `complete` event whose last
message is not streaming is a no-op that leaves the busy flag
unchanged; in the code `setIsThinking(false)` runs unconditionally, so
from the reachable state with an empty log and the busy flag set
(after status("thinking")), `complete` leaves the messages unchanged
but clears the busy flag. -/
theorem c3_complete_counterexample :
    (runFrom initState
        [(1, ClientAction.wsMsg (WSData.status "thinking"))]).isThinking = true ∧
    (handleWebSocketMessage 2 WSData.complete
        (runFrom initState
          [(1, ClientAction.wsMsg (WSData.status "thinking"))])).messages
      = (runFrom initState
          [(1, ClientAction.wsMsg (WSData.status "thinking"))]).messages ∧
    (handleWebSocketMessage 2 WSData.complete
        (runFrom initState
          [(1, ClientAction.wsMsg (WSData.status "thinking"))])).isThinking
      = false := by
  decide

/-- C3 (amended): a `complete` event always clears the busy flag; when
the last message is streaming it is finalized in place, and otherwise
the message sequence is left unchanged. -/
theorem c3_complete_behavior (now : Nat) (s : ClientState) :
    (handleWebSocketMessage now WSData.complete s).isThinking = false ∧
    (∀ m, s.messages.getLast? = some m → m.streaming = true →
        (handleWebSocketMessage now WSData.complete s).messages
          = s.messages.dropLast ++ [{ m with streaming := false }]) ∧
    ((∀ m, s.messages.getLast? = some m → m.streaming = false) →
        (handleWebSocketMessage now WSData.complete s).messages
          = s.messages) := by
  refine ⟨?_, ?_, ?_⟩
  · simp only [handleWebSocketMessage]
    cases s.messages.getLast? with
    | none => rfl
    | some m =>
        dsimp only
        by_cases hm : m.streaming = true
        · rw [if_pos hm]
        · rw [if_neg hm]
  · intro m hm hs
    simp only [handleWebSocketMessage, hm]
    rw [if_pos hs]
  · intro hall
    simp only [handleWebSocketMessage]
    cases hl : s.messages.getLast? with
    | none => rfl
    | some m =>
        dsimp only
        rw [if_neg (by simp [hall m hl])]

/-- C3 (witness): finalizing a streaming message via `complete`. -/
theorem c3_complete_behavior_witness :
    (handleWebSocketMessage 4 WSData.complete
        (runFrom initState [(2, ClientAction.wsMsg (WSData.chunk "Hi"))])).messages
      = (runFrom initState
          [(2, ClientAction.wsMsg (WSData.chunk "Hi"))]).messages.dropLast
          ++ [{ newAssistantMessage 2 "Hi" with streaming := false }] :=
  (c3_complete_behavior 4 _).2.1 (newAssistantMessage 2 "Hi") (by decide) rfl

/-- C4 (code bug): explicit teardown does not stop reconnection.  The
`useEffect` cleanup only calls `ws.close()`; it neither cancels a
pending reconnect timer (the `setTimeout` id is never stored, and no
`clearTimeout` exists in the source) nor detaches `onclose`.  From the
mounted connected state: after the cleanup runs, the channel closure
it triggers still schedules a reconnect, and when that timer fires
`connectWebSocket` runs again (`connectCalls` goes from 1 to 2), all
with `unmounted = true`; and a reconnect timer pending at cleanup time
is left pending. -/
theorem c4_close_does_not_prevent_reconnect :
    (cleanup { connectionStatus := ConnStatus.connected, unmounted := false,
               pendingReconnects := 1, connectCalls := 1 }).pendingReconnects
        = 1 ∧
    (wsOnCloseMgr (cleanup
        (wsOnOpenMgr (connectWebSocket initMgrState)))).pendingReconnects = 1 ∧
    (reconnectTimerFires (wsOnCloseMgr (cleanup
        (wsOnOpenMgr (connectWebSocket initMgrState))))).connectCalls = 2 ∧
    (reconnectTimerFires (wsOnCloseMgr (cleanup
        (wsOnOpenMgr (connectWebSocket initMgrState))))).unmounted = true := by
  decide

/-- C5: a submit with whitespace-only input, or issued while not
connected, is rejected: the state is returned unchanged and no
outbound event is produced (the source returns early from
`handleSendMessage`). -/
theorem c5_submit_rejected (now : Nat) (s : ClientState)
    (h : trimString s.inputText = "" ∨ s.connectionStatus ≠ ConnStatus.connected) :
    handleSendMessage now s = (s, none) := by
  unfold handleSendMessage
  rw [if_pos h]

/-- C5 (witness): submitting "   " leaves the state unchanged and
sends nothing. -/
theorem c5_submit_rejected_witness :
    (trimString ({ initState with inputText := "   " } : ClientState).inputText = ""
        ∨ ({ initState with inputText := "   " } : ClientState).connectionStatus
            ≠ ConnStatus.connected) ∧
      handleSendMessage 0 { initState with inputText := "   " }
        = ({ initState with inputText := "   " }, none) :=
  ⟨Or.inl (by decide),
   c5_submit_rejected 0 { initState with inputText := "   " }
     (Or.inl (by decide))⟩

/-- C6: in every reachable state, a submit with non-blank input while
connected appends exactly one finalized user message carrying the
input text and the current modifier flags, and produces exactly one
outbound event of shape
type "chat" / message / webSearch / thinkingMode / model. -/
theorem c6_submit_appends_and_sends (now : Nat) (s : ClientState)
    (hr : Reachable s) (ht : trimString s.inputText ≠ "")
    (hc : s.connectionStatus = ConnStatus.connected) :
    (handleSendMessage now s).1.messages
        = s.messages ++
          [{ id := now, type := Role.user, content := s.inputText,
             timestamp := now, webSearch := s.webSearchEnabled,
             thinking := s.thinkingMode }] ∧
      (handleSendMessage now s).2
        = some { type := "chat", message := s.inputText,
                 webSearch := s.webSearchEnabled,
                 thinkingMode := s.thinkingMode,
                 model := s.selectedModel } := by
  have hw : s.wsOpen = true := reachable_connected_wsOpen hr hc
  have hg : ¬(trimString s.inputText = ""
      ∨ s.connectionStatus ≠ ConnStatus.connected) := by
    push_neg
    exact ⟨ht, hc⟩
  unfold handleSendMessage
  rw [if_neg hg]
  dsimp only
  rw [if_pos hw]
  exact ⟨rfl, rfl⟩

/-- C6 (witness): from the reachable state obtained by connecting and
typing "hello", submit appends the user message and emits the chat
event with the concrete field values. -/
theorem c6_submit_appends_and_sends_witness :
    trimString (runFrom initState
        [(0, ClientAction.wsOpenEv),
         (1, ClientAction.setInputText "hello")]).inputText ≠ "" ∧
    (runFrom initState
        [(0, ClientAction.wsOpenEv),
         (1, ClientAction.setInputText "hello")]).connectionStatus
      = ConnStatus.connected ∧
    (handleSendMessage 5 (runFrom initState
        [(0, ClientAction.wsOpenEv),
         (1, ClientAction.setInputText "hello")])).1.messages
      = [connectedMessage 0,
         { id := 5, type := Role.user, content := "hello", timestamp := 5 }] ∧
    (handleSendMessage 5 (runFrom initState
        [(0, ClientAction.wsOpenEv),
         (1, ClientAction.setInputText "hello")])).2
      = some { type := "chat", message := "hello", webSearch := false,
               thinkingMode := false, model := "phi3:3.8b" } := by
  have h := c6_submit_appends_and_sends 5
      (runFrom initState
        [(0, ClientAction.wsOpenEv), (1, ClientAction.setInputText "hello")])
      ⟨[(0, ClientAction.wsOpenEv), (1, ClientAction.setInputText "hello")], rfl⟩
      (by decide) (by decide)
  exact ⟨by decide, by decide, h.1.trans (by decide), h.2.trans (by decide)⟩

/-- C7: an `error(message)` event appends exactly one finalized error
message and clears the busy flag, and every pre-existing message —
including an in-flight streaming one — is left byte-for-byte
unchanged (the old log is an unmodified prefix of the new one). -/
theorem c7_error_appends_and_clears (now : Nat) (msg : String)
    (s : ClientState) :
    (handleWebSocketMessage now (WSData.error msg) s).messages
        = s.messages ++ [newErrorMessage now msg] ∧
      (newErrorMessage now msg).streaming = false ∧
      (handleWebSocketMessage now (WSData.error msg) s).isThinking = false ∧
      (handleWebSocketMessage now (WSData.error msg) s).messages.take
          s.messages.length = s.messages :=
  ⟨rfl, rfl, rfl, List.take_left s.messages [newErrorMessage now msg]⟩

/-- C8 (counterexample): message ids are `Date.now()` values, so two
messages created within the same millisecond collide: two error
events handled at clock value 5 yield two messages with id 5. -/
theorem c8_ids_unique_counterexample :
    ¬ (msgIds (runFrom initState
        [(5, ClientAction.wsMsg (WSData.error "a")),
         (5, ClientAction.wsMsg (WSData.error "b"))])).Pairwise (· ≠ ·) := by
  decide

/-- C8 (amended): along any trace whose clock values are strictly
increasing — i.e. no two events are handled in the same millisecond —
all message ids are pairwise distinct, across every way a message is
created (user submit, assistant streaming, system, error, upload
summary). -/
theorem c8_ids_unique_amended (tr : List (Nat × ClientAction))
    (h : (tr.map Prod.fst).Pairwise (· < ·)) :
    (msgIds (runFrom initState tr)).Pairwise (· ≠ ·) := by
  have hp := runFrom_ids_pairwise tr initState h
    (by simp [msgIds, initState]) (by simp [msgIds, initState])
  exact hp.imp (fun hlt => Nat.ne_of_lt hlt)

/-- C8 (witness): two error events at distinct clock values produce
distinct ids. -/
theorem c8_ids_unique_amended_witness :
    (([(1, ClientAction.wsMsg (WSData.error "a")),
       (2, ClientAction.wsMsg (WSData.error "b"))].map
        (Prod.fst (α := Nat) (β := ClientAction))).Pairwise (· < ·)) ∧
    (msgIds (runFrom initState
        [(1, ClientAction.wsMsg (WSData.error "a")),
         (2, ClientAction.wsMsg (WSData.error "b"))])).Pairwise (· ≠ ·) :=
  ⟨by decide, c8_ids_unique_amended _ (by decide)⟩

/-- C9 (counterexample): when the upload response does not report
overall success, the source silently ignores it: no message is
appended (the state is returned unchanged) but — contrary to the
claim — nothing is surfaced to the user either (no console output,
no notification). -/
theorem c9_upload_failure_counterexample :
    (handleFileSelect 9 ["notes.txt"] (UploadOutcome.response false [])
        initState).1 = initState ∧
    (handleFileSelect 9 ["notes.txt"] (UploadOutcome.response false [])
        initState).2 = none := by
  decide

/-- C9 (amended): a response that does not report overall success
appends no message and surfaces nothing (the failure is silently
dropped); a message carrying the upload summary and the returned file
references is appended exactly when the response reports success. -/
theorem c9_upload_failure_behavior (now : Nat)
    (names resultFiles : List String) (s : ClientState) :
    handleFileSelect now names (UploadOutcome.response false resultFiles) s
        = (s, none) ∧
    (0 < names.length →
      handleFileSelect now names (UploadOutcome.response true resultFiles) s
        = ({ s with messages := s.messages ++
              [{ id := now, type := Role.user,
                 content := uploadSummary names, timestamp := now,
                 files := resultFiles }] }, none)) := by
  constructor
  · by_cases h0 : names.length = 0
    · simp [handleFileSelect, h0]
    · simp [handleFileSelect, h0]
  · intro hpos
    have h0 : ¬ names.length = 0 := by omega
    simp [handleFileSelect, h0]

/-- C9 (witness): a successful single-file upload appends the summary
message with the server-assigned reference. -/
theorem c9_upload_failure_behavior_witness :
    0 < (["notes.txt"] : List String).length ∧
    handleFileSelect 9 ["notes.txt"] (UploadOutcome.response true ["srv/1"])
        initState
      = ({ initState with messages := initState.messages ++
            [{ id := 9, type := Role.user,
               content := uploadSummary ["notes.txt"], timestamp := 9,
               files := ["srv/1"] }] }, none) :=
  ⟨by decide,
   (c9_upload_failure_behavior 9 ["notes.txt"] ["srv/1"] initState).2
     (by decide)⟩

/-- C10: a `status` event whose status field is not "thinking", and
any event whose type is none of the five handled ones, leave the
entire client state unchanged. -/
theorem c10_unhandled_events_noop (now : Nat) (s : ClientState) :
    (∀ st : String, st ≠ "thinking" →
        handleWebSocketMessage now (WSData.status st) s = s) ∧
    (∀ ty : String, handleWebSocketMessage now (WSData.other ty) s = s) := by
  refine ⟨?_, fun ty => rfl⟩
  intro st h
  simp [handleWebSocketMessage, h]

/-- C10 (witness): the status("processing") event is a no-op on the
initial state. -/
theorem c10_unhandled_events_noop_witness :
    ("processing" ≠ "thinking") ∧
      handleWebSocketMessage 0 (WSData.status "processing") initState
        = initState :=
  ⟨by decide, (c10_unhandled_events_noop 0 initState).1 "processing" (by decide)⟩
